import Mathlib

/-!
Shallow embedding of the background script of github-account-switcher
(src/src/background/index.ts) and proofs about its rule-compilation,
cookie-watching, message-handling and request-interception logic.

External collaborators (account store, rule store, cookie store, the
declarative-net-request engine, regex matching) are passed in as explicit
parameters; the functions below mirror the control flow of the source.
-/

namespace GithubAccountSwitcher

/-- A stored cookie: a name/value pair (other browser cookie fields are
irrelevant to the logic modelled here). -/
structure Cookie where
  name : String
  value : String
deriving DecidableEq

/-- An account as held by the account store: a name and its cookie snapshot. -/
structure Account where
  name : String
  cookies : List Cookie
deriving DecidableEq

/-- An auto-switch rule from the rule store: `{ account, urlPattern }`. -/
structure AutoSwitchRule where
  account : String
  urlPattern : String
deriving DecidableEq

/-- The fixed RESOURCE_TYPES list from the top of the source file. -/
def RESOURCE_TYPES : List String :=
  ["main_frame", "sub_frame", "csp_report", "websocket", "xmlhttprequest"]

/-- One entry of `action.requestHeaders` in a declarative-net-request rule. -/
structure ModifyHeaderInfo where
  header : String
  operation : String
  value : String
deriving DecidableEq

/-- The `action` part of a declarative-net-request rule. -/
structure RuleAction where
  type : String
  requestHeaders : List ModifyHeaderInfo
deriving DecidableEq

/-- The `condition` part of a declarative-net-request rule. -/
structure RuleCondition where
  regexFilter : String
  resourceTypes : List String
deriving DecidableEq

/-- A compiled declarative-net-request rule as pushed by `buildAddRules`. -/
structure DNRRule where
  id : Nat
  priority : Nat
  action : RuleAction
  condition : RuleCondition
deriving DecidableEq

/-- JavaScript `Array.prototype.join(sep)`, as used by `buildCookieValue`. -/
def joinSep (sep : String) : List String → String
  | [] => ""
  | [x] => x
  | x :: rest => x ++ sep ++ joinSep sep rest

/-- buildCookieValue from the source: look up the account (null-ish cookies
default to the empty list), return null for an empty cookie list, otherwise
join `name=value` pairs together with the `__account__=<name>` marker. -/
def buildCookieValue (accounts : List Account) (accountName : String) : Option String :=
  let account := accounts.find? (fun a => a.name == accountName)
  let cookies := (account.map (fun a => a.cookies)).getD []
  if cookies.isEmpty then
    none
  else
    some (joinSep "; " ((cookies.map (fun c => c.name ++ "=" ++ c.value))
      ++ ["__account__=" ++ accountName]))

/-- The rule object pushed by `buildAddRules` for the entry at `index`
(0-based) once its cookie value is known to be non-null. -/
def compiledRule (index : Nat) (rule : AutoSwitchRule) (cookieValue : String) : DNRRule :=
  { id := index + 1
    priority := 1
    action :=
      { type := "modifyHeaders"
        requestHeaders :=
          [{ header := "Cookie", operation := "set", value := cookieValue }] }
    condition :=
      { regexFilter := rule.urlPattern ++ "|__account__=" ++ rule.account
        resourceTypes := RESOURCE_TYPES } }

/-- The loop body of `buildAddRules`: iterate the auto-switch rules carrying
the entry index, skip entries whose `buildCookieValue` is null, otherwise push
the compiled rule. The `index` argument is the current position produced by
`entries()`. -/
def buildAddRulesAux (accounts : List Account) :
    Nat → List AutoSwitchRule → List DNRRule
  | _, [] => []
  | index, rule :: rest =>
    match buildCookieValue accounts rule.account with
    | none => buildAddRulesAux accounts (index + 1) rest
    | some cookieValue =>
      compiledRule index rule cookieValue :: buildAddRulesAux accounts (index + 1) rest

/-- buildAddRules from the source, with the rule store and account store
contents passed explicitly. -/
def buildAddRules (accounts : List Account)
    (autoSwitchRules : List AutoSwitchRule) : List DNRRule :=
  buildAddRulesAux accounts 0 autoSwitchRules

/-! Helper lemmas about the compiler. -/

lemma joinSep_append_singleton (sep m : String) :
    ∀ l : List String, l ≠ [] →
      joinSep sep (l ++ [m]) = joinSep sep l ++ sep ++ m
  | [], h => absurd rfl h
  | [x], _ => rfl
  | x :: y :: rest, _ => by
    have ih := joinSep_append_singleton sep m (y :: rest) (by simp)
    show x ++ sep ++ joinSep sep ((y :: rest) ++ [m])
        = x ++ sep ++ joinSep sep (y :: rest) ++ sep ++ m
    rw [ih]
    simp [String.append_assoc]

lemma mem_buildAddRulesAux (accounts : List Account) (v : String) :
    ∀ (rules : List AutoSwitchRule) (k i : Nat) (rule : AutoSwitchRule),
      rules[i]? = some rule →
      buildCookieValue accounts rule.account = some v →
      compiledRule (k + i) rule v ∈ buildAddRulesAux accounts k rules := by
  intro rules
  induction rules with
  | nil => intro k i rule h _; simp at h
  | cons r rest ih =>
    intro k i rule h hv
    cases i with
    | zero =>
      simp only [List.getElem?_cons_zero, Option.some.injEq] at h
      subst h
      unfold buildAddRulesAux
      rw [hv]
      exact List.mem_cons_self _ _
    | succ n =>
      simp only [List.getElem?_cons_succ] at h
      have hmem := ih (k + 1) n rule h hv
      have hk : k + (n + 1) = k + 1 + n := by omega
      rw [hk]
      unfold buildAddRulesAux
      cases hcv : buildCookieValue accounts r.account with
      | none => exact hmem
      | some w => exact List.mem_cons_of_mem _ hmem

/-- C1: for every ordered rule list, each entry whose account yields a
non-null cookie value is compiled to a filter rule with id = originalIndex + 1
(the index in the original list, skips included), priority 1,
regexFilter `urlPattern|__account__=account`, and the fixed five resource
types; and on the two-rule alice/bob example where only bob has cookies the
output is exactly one rule, with id 2. -/
theorem buildAddRules_emits_rule (accounts : List Account) (rules : List AutoSwitchRule)
    (i : Nat) (rule : AutoSwitchRule) (hrule : rules[i]? = some rule)
    (v : String) (hv : buildCookieValue accounts rule.account = some v) :
    ({ id := i + 1
       priority := 1
       action :=
         { type := "modifyHeaders"
           requestHeaders := [{ header := "Cookie", operation := "set", value := v }] }
       condition :=
         { regexFilter := rule.urlPattern ++ "|__account__=" ++ rule.account
           resourceTypes := RESOURCE_TYPES } } : DNRRule) ∈ buildAddRules accounts rules ∧
    buildAddRules [⟨"alice", []⟩, ⟨"bob", [⟨"c", "v"⟩]⟩]
        [⟨"alice", "P1"⟩, ⟨"bob", "P2"⟩] =
      [{ id := 2
         priority := 1
         action :=
           { type := "modifyHeaders"
             requestHeaders :=
               [{ header := "Cookie", operation := "set", value := "c=v; __account__=bob" }] }
         condition :=
           { regexFilter := "P2|__account__=bob"
             resourceTypes := RESOURCE_TYPES } }] := by
  constructor
  · have h := mem_buildAddRulesAux accounts v rules 0 i rule hrule hv
    rw [Nat.zero_add] at h
    exact h
  · decide

/-- Witness for C1: the alice/bob example, where only bob has a stored cookie,
contains the compiled rule with id 2 for the second entry. -/
theorem buildAddRules_emits_rule_witness :
    ({ id := 2
       priority := 1
       action :=
         { type := "modifyHeaders"
           requestHeaders :=
             [{ header := "Cookie", operation := "set", value := "c=v; __account__=bob" }] }
       condition :=
         { regexFilter := "P2|__account__=bob"
           resourceTypes := RESOURCE_TYPES } } : DNRRule)
      ∈ buildAddRules [⟨"alice", []⟩, ⟨"bob", [⟨"c", "v"⟩]⟩]
          [⟨"alice", "P1"⟩, ⟨"bob", "P2"⟩] := by
  have h := (buildAddRules_emits_rule [⟨"alice", []⟩, ⟨"bob", [⟨"c", "v"⟩]⟩]
    [⟨"alice", "P1"⟩, ⟨"bob", "P2"⟩] 1 ⟨"bob", "P2"⟩ (by decide)
    "c=v; __account__=bob" (by decide)).1
  exact h

/-- C2: buildCookieValue returns none when the account is unknown or has zero
stored cookies, and otherwise joins each cookie as name=value with "; " and
appends the __account__ marker; on alice with cookies a=1 and b=2 the result
is exactly the documented marker-terminated string. -/
theorem buildCookieValue_spec (accounts : List Account) (accountName : String) :
    (accounts.find? (fun a => a.name == accountName) = none →
      buildCookieValue accounts accountName = none) ∧
    (∀ a, accounts.find? (fun a => a.name == accountName) = some a →
      a.cookies = [] → buildCookieValue accounts accountName = none) ∧
    (∀ a, accounts.find? (fun a => a.name == accountName) = some a →
      a.cookies ≠ [] →
      buildCookieValue accounts accountName =
        some (joinSep "; " (a.cookies.map (fun c => c.name ++ "=" ++ c.value))
          ++ "; " ++ ("__account__=" ++ accountName))) ∧
    buildCookieValue [⟨"alice", [⟨"a", "1"⟩, ⟨"b", "2"⟩]⟩] "alice"
      = some "a=1; b=2; __account__=alice" := by
  refine ⟨?_, ?_, ?_, by decide⟩
  · intro h
    simp [buildCookieValue, h]
  · intro a ha hc
    simp [buildCookieValue, ha, hc]
  · intro a ha hc
    have hne : a.cookies.map (fun c => c.name ++ "=" ++ c.value) ≠ [] := by
      simpa using hc
    simp only [buildCookieValue, ha, Option.map_some', Option.getD_some]
    rw [if_neg (by simpa [List.isEmpty_iff] using hc)]
    rw [joinSep_append_singleton _ _ _ hne]

/-- Witness for C2: instantiating the specification at the concrete alice
store yields the documented joined string. -/
theorem buildCookieValue_spec_witness :
    buildCookieValue [⟨"alice", [⟨"a", "1"⟩, ⟨"b", "2"⟩]⟩] "alice"
      = some "a=1; b=2; __account__=alice" :=
  (buildCookieValue_spec [⟨"alice", [⟨"a", "1"⟩, ⟨"b", "2"⟩]⟩] "alice").2.2.2

/-! The fallback request interceptor (interceptRequests). Regex matching is
abstracted as a regexTest parameter: regexTest pattern url models the
JavaScript test of the composed pattern string against the request URL. -/

/-- A request header name/value pair from onBeforeSendHeaders details. -/
structure Header where
  name : String
  value : String
deriving DecidableEq

/-- JavaScript String.prototype.toLowerCase as used on header names:
character-wise lowering, expressed on the underlying character list so that
it computes by kernel reduction. -/
def toLowerCase (s : String) : String := String.mk (s.data.map Char.toLower)

/-- The per-rule loop of the interceptRequests listener: the rules are tried
in declared order; on the first rule whose combined pattern matches the URL,
every Cookie header (name compared case-insensitively) is set to the rule
account's cookie value when that value is non-null, and the listener returns
without consulting later rules. -/
def interceptLoop (regexTest : String → String → Bool) (accounts : List Account)
    (autoSwitchRules : List AutoSwitchRule) (url : String)
    (requestHeaders : List Header) : List Header :=
  match autoSwitchRules with
  | [] => requestHeaders
  | rule :: rest =>
    if regexTest (rule.urlPattern ++ "|__account__=" ++ rule.account) url then
      match buildCookieValue accounts rule.account with
      | some cookieValue =>
        requestHeaders.map (fun header =>
          if toLowerCase header.name == "cookie" then { header with value := cookieValue }
          else header)
      | none => requestHeaders
    else
      interceptLoop regexTest accounts rest url requestHeaders

/-- The onBeforeSendHeaders listener of interceptRequests: a request without
headers is returned unchanged, otherwise the rule loop runs on its headers. -/
def onBeforeSendHeaders (regexTest : String → String → Bool) (accounts : List Account)
    (autoSwitchRules : List AutoSwitchRule) (url : String) :
    Option (List Header) → Option (List Header)
  | none => none
  | some requestHeaders =>
    some (interceptLoop regexTest accounts autoSwitchRules url requestHeaders)

/-- Inverse characterisation of the compiler output: every emitted rule comes
from some input entry with a non-null cookie value, at id = entry index + 1. -/
lemma of_mem_buildAddRulesAux (accounts : List Account) :
    ∀ (rules : List AutoSwitchRule) (k : Nat) (r : DNRRule),
      r ∈ buildAddRulesAux accounts k rules →
      ∃ (j : Nat) (rule : AutoSwitchRule) (v : String),
        rules[j]? = some rule ∧ buildCookieValue accounts rule.account = some v ∧
        r = compiledRule (k + j) rule v := by
  intro rules
  induction rules with
  | nil => intro k r h; simp [buildAddRulesAux] at h
  | cons r0 rest ih =>
    intro k r h
    unfold buildAddRulesAux at h
    cases hcv : buildCookieValue accounts r0.account with
    | none =>
      rw [hcv] at h
      obtain ⟨j, rule, v, hj, hv, hr⟩ := ih (k + 1) r h
      exact ⟨j + 1, rule, v, by simpa using hj, hv, by rw [hr]; congr 1; omega⟩
    | some w =>
      rw [hcv] at h
      rcases List.mem_cons.mp h with hr | hr
      · exact ⟨0, r0, w, by simp, hcv, by rw [hr]; congr 1⟩
      · obtain ⟨j, rule, v, hj, hv, hr'⟩ := ih (k + 1) r hr
        exact ⟨j + 1, rule, v, by simpa using hj, hv, by rw [hr']; congr 1; omega⟩

/-- C3 counterexample: with alice having no cookies and both combined
patterns matching the URL, the fallback interceptor stops at the alice rule
without rewriting, so the later bob rule is not applied: the outcome differs
from the one with the bob rule alone, refuting that an empty-cookie rule
never prevents later rules from matching. -/
theorem emptyCookieRule_blocks_counterexample :
    interceptLoop (fun _ _ => true)
        [⟨"alice", []⟩, ⟨"bob", [⟨"s", "x"⟩]⟩]
        [⟨"alice", "P1"⟩, ⟨"bob", "P2"⟩] "https://github.com/x"
        [⟨"Cookie", "foo=bar"⟩]
      ≠ interceptLoop (fun _ _ => true)
        [⟨"alice", []⟩, ⟨"bob", [⟨"s", "x"⟩]⟩]
        [⟨"bob", "P2"⟩] "https://github.com/x"
        [⟨"Cookie", "foo=bar"⟩] := by decide

/-- C3 (amended): a rule whose account currently has no stored cookies yields
no compiled filter rule (no output rule carries its id) and never causes a
header rewrite in the fallback path; however, when its combined pattern is
the first to match the request URL it still consumes the match, returning the
headers unchanged and preventing later rules from being applied. -/
theorem emptyCookieRule_no_rule_no_rewrite (accounts : List Account)
    (rules : List AutoSwitchRule) (i : Nat) (rule : AutoSwitchRule)
    (hrule : rules[i]? = some rule)
    (hempty : buildCookieValue accounts rule.account = none) :
    (∀ r ∈ buildAddRules accounts rules, r.id ≠ i + 1) ∧
    (∀ (regexTest : String → String → Bool) (url : String)
        (requestHeaders : List Header) (rest : List AutoSwitchRule),
      interceptLoop regexTest accounts (rule :: rest) url requestHeaders =
        if regexTest (rule.urlPattern ++ "|__account__=" ++ rule.account) url then
          requestHeaders
        else
          interceptLoop regexTest accounts rest url requestHeaders) := by
  constructor
  · intro r hr hid
    obtain ⟨j, rule', v, hj, hv, hrv⟩ := of_mem_buildAddRulesAux accounts rules 0 r hr
    rw [hrv] at hid
    simp only [compiledRule, Nat.zero_add] at hid
    have : j = i := by omega
    subst this
    rw [hrule] at hj
    cases hj
    rw [hempty] at hv
    cases hv
  · intro regexTest url requestHeaders rest
    by_cases hmatch : regexTest (rule.urlPattern ++ "|__account__=" ++ rule.account) url
    · simp [interceptLoop, hmatch, hempty]
    · simp [interceptLoop, hmatch]

/-- Witness for the amended C3: in the two-rule alice/bob store where alice
has no cookies, the alice entry produces no compiled rule with id 1, and the
interceptor returns the headers unchanged on a matching URL even though the
bob rule follows. -/
theorem emptyCookieRule_no_rule_no_rewrite_witness :
    (∀ r ∈ buildAddRules [⟨"alice", []⟩, ⟨"bob", [⟨"s", "x"⟩]⟩]
        [⟨"alice", "P1"⟩, ⟨"bob", "P2"⟩], r.id ≠ 1) ∧
    interceptLoop (fun _ _ => true) [⟨"alice", []⟩, ⟨"bob", [⟨"s", "x"⟩]⟩]
        [⟨"alice", "P1"⟩, ⟨"bob", "P2"⟩] "https://github.com/x"
        [⟨"Cookie", "foo=bar"⟩]
      = [⟨"Cookie", "foo=bar"⟩] := by
  have h := emptyCookieRule_no_rule_no_rewrite
    [⟨"alice", []⟩, ⟨"bob", [⟨"s", "x"⟩]⟩]
    [⟨"alice", "P1"⟩, ⟨"bob", "P2"⟩] 0 ⟨"alice", "P1"⟩ (by decide) (by decide)
  refine ⟨h.1, ?_⟩
  rw [h.2 (fun _ _ => true) "https://github.com/x" [⟨"Cookie", "foo=bar"⟩] [⟨"bob", "P2"⟩]]
  decide

/-- C6: the fallback interceptor evaluates rules in declared order and
applies only the first rule whose combined pattern matches the URL: with a
non-null cookie value every Cookie header (case-insensitive name) is replaced
by it, and later rules are ignored; concretely, a request carrying the header
Cookie=foo=bar that matches the alice rule (alice stores the cookie s=x) ends
with header value "s=x; __account__=alice" even though a later rule would
also match. -/
theorem interceptLoop_first_match (regexTest : String → String → Bool)
    (accounts : List Account) (pre : List AutoSwitchRule) (rule : AutoSwitchRule)
    (rest : List AutoSwitchRule) (url : String) (requestHeaders : List Header)
    (hpre : ∀ p ∈ pre, regexTest (p.urlPattern ++ "|__account__=" ++ p.account) url = false)
    (hmatch : regexTest (rule.urlPattern ++ "|__account__=" ++ rule.account) url = true)
    (v : String) (hv : buildCookieValue accounts rule.account = some v) :
    interceptLoop regexTest accounts (pre ++ rule :: rest) url requestHeaders =
      requestHeaders.map (fun header =>
        if toLowerCase header.name == "cookie" then { header with value := v }
        else header) ∧
    interceptLoop (fun _ _ => true) [⟨"alice", [⟨"s", "x"⟩]⟩]
        [⟨"alice", "P1"⟩, ⟨"bob", "P2"⟩] "https://github.com/x"
        [⟨"Cookie", "foo=bar"⟩]
      = [⟨"Cookie", "s=x; __account__=alice"⟩] := by
  refine ⟨?_, by decide⟩
  induction pre with
  | nil =>
    simp only [List.nil_append, interceptLoop, hmatch, if_true, hv]
  | cons p ps ih =>
    have hp := hpre p (List.mem_cons_self p ps)
    simp only [List.cons_append, interceptLoop, hp, Bool.false_eq_true, if_false]
    exact ih (fun q hq => hpre q (List.mem_cons_of_mem p hq))

/-- Witness for C6: the concrete alice request of the claim, rewritten to the
documented header value with the bob rule never applied. -/
theorem interceptLoop_first_match_witness :
    interceptLoop (fun _ _ => true) [⟨"alice", [⟨"s", "x"⟩]⟩]
        [⟨"alice", "P1"⟩, ⟨"bob", "P2"⟩] "https://github.com/x"
        [⟨"Cookie", "foo=bar"⟩]
      = [⟨"Cookie", "s=x; __account__=alice"⟩] := by
  have h := (interceptLoop_first_match (fun _ _ => true) [⟨"alice", [⟨"s", "x"⟩]⟩]
    [] ⟨"alice", "P1"⟩ [⟨"bob", "P2"⟩] "https://github.com/x"
    [⟨"Cookie", "foo=bar"⟩] (by intro p hp; cases hp) (by decide)
    "s=x; __account__=alice" (by decide)).1
  rw [List.nil_append] at h
  rw [h]
  decide

/-! The cookie watcher (watchCookies) and its debounce timer. Time is an
explicit Nat of milliseconds; the single syncTimer variable of the source is
an optional fire deadline. -/

/-- The AUTH_COOKIES allow-list from watchCookies. -/
def AUTH_COOKIES : List String :=
  ["dotcom_user", "user_session", "_gh_sso", "logged_in"]

/-- Watcher state: the single pending debounce timer (its fire deadline when
armed), mirroring the syncTimer variable, plus the recorded fire times of the
syncAccounts invocations the timer has triggered. -/
structure WatcherState where
  syncTimer : Option Nat
  syncFires : List Nat
deriving DecidableEq

/-- scheduleSync at the current time: any pending timer is cleared
(clearTimeout) and a fresh one is armed to fire 300 ms later. -/
def scheduleSync (s : WatcherState) (now : Nat) : WatcherState :=
  { s with syncTimer := some (now + 300) }

/-- Event-loop delivery of a due timer: a pending timer whose deadline has
been reached fires, invoking syncAccounts (recorded with the fire time, since
syncAccounts reads the cookie store when it actually runs) and clearing
syncTimer. -/
def fireIfDue (s : WatcherState) (now : Nat) : WatcherState :=
  match s.syncTimer with
  | some deadline =>
    if deadline ≤ now then
      { syncTimer := none, syncFires := s.syncFires ++ [deadline] }
    else s
  | none => s

/-- The observable effects of one cookies.onChanged listener invocation. -/
structure CookieEventResult where
  badgeCalls : List String
  armsTimer : Bool
deriving DecidableEq

/-- The cookies.onChanged listener body of watchCookies: changes to cookies
outside AUTH_COOKIES are ignored; on any removal the listener returns without
arming a timer, emitting the "..." badge text when the removed cookie is
dotcom_user; every other qualifying change calls scheduleSync. -/
def onCookieChanged (changedName : String) (removed : Bool) : CookieEventResult :=
  if ¬ (changedName ∈ AUTH_COOKIES) then
    { badgeCalls := [], armsTimer := false }
  else if removed then
    if changedName = "dotcom_user" then
      { badgeCalls := ["..."], armsTimer := false }
    else
      { badgeCalls := [], armsTimer := false }
  else
    { badgeCalls := [], armsTimer := true }

/-- One timer-arming cookie event arriving at time `now`: the event loop first
delivers a due timer, then the listener runs scheduleSync. -/
def qualifyingEvent (s : WatcherState) (now : Nat) : WatcherState :=
  scheduleSync (fireIfDue s now) now

/-- Run a burst of timer-arming events at the given times starting from the
idle watcher, then let the event loop run to quiescence, so a still-pending
timer fires. -/
def runBurst (times : List Nat) : WatcherState :=
  let final := times.foldl qualifyingEvent { syncTimer := none, syncFires := [] }
  match final.syncTimer with
  | some deadline =>
    { syncTimer := none, syncFires := final.syncFires ++ [deadline] }
  | none => final

lemma foldl_qualifyingEvent_burst :
    ∀ (ts : List Nat) (t : Nat) (fires : List Nat),
      List.Chain (fun a b => a ≤ b ∧ b < a + 300) t ts →
      List.foldl qualifyingEvent { syncTimer := some (t + 300), syncFires := fires } ts
        = { syncTimer := some (ts.getLastD t + 300), syncFires := fires } := by
  intro ts
  induction ts with
  | nil => intro t fires _; rfl
  | cons u us ih =>
    intro t fires hchain
    rcases hchain with _ | ⟨⟨_, hlt⟩, hchain'⟩
    have hstep : qualifyingEvent { syncTimer := some (t + 300), syncFires := fires } u
        = { syncTimer := some (u + 300), syncFires := fires } := by
      unfold qualifyingEvent fireIfDue
      simp only
      rw [if_neg (by omega)]
      rfl
    rw [List.foldl_cons, hstep, ih u fires hchain', List.getLastD_cons]

/-- C4 counterexample: a removal notification for the allow-listed,
non-primary cookie user_session does not arm the debounce timer: the listener
returns before scheduleSync. -/
theorem removal_does_not_arm_counterexample :
    ¬ ((onCookieChanged "user_session" true).armsTimer = true) := by decide

/-- C4 (amended): a removal of an allow-listed cookie other than dotcom_user
is ignored entirely — no timer is armed and no badge call is made; the 300 ms
debounce timer is (re)armed only by non-removal changes of allow-listed
cookies, and arming always replaces any previously pending timer with one
firing 300 ms from now. -/
theorem removal_ignored_nonprimary (changedName : String)
    (hmem : changedName ∈ AUTH_COOKIES) (hne : changedName ≠ "dotcom_user") :
    onCookieChanged changedName true = { badgeCalls := [], armsTimer := false } ∧
    (onCookieChanged changedName false).armsTimer = true ∧
    (∀ (s : WatcherState) (now : Nat),
      (scheduleSync s now).syncTimer = some (now + 300)) := by
  refine ⟨?_, ?_, fun s now => rfl⟩
  · simp [onCookieChanged, hmem, hne]
  · simp [onCookieChanged, hmem]

/-- Witness for the amended C4: the user_session removal is ignored while a
user_session update arms the timer. -/
theorem removal_ignored_nonprimary_witness :
    onCookieChanged "user_session" true = { badgeCalls := [], armsTimer := false } ∧
    (onCookieChanged "user_session" false).armsTimer = true := by
  have h := removal_ignored_nonprimary "user_session" (by decide) (by decide)
  exact ⟨h.1, h.2.1⟩

/-- C5: the watcher holds at most one pending debounce timer (a single
optional deadline; arming replaces it), and a burst of qualifying events each
arriving within 300 ms of its predecessor collapses into exactly one
syncAccounts invocation, fired 300 ms after the last event of the burst — so
the sync reads the cookie state current at that fire time, not at any
individual event. -/
theorem debounce_coalesces_burst (t : Nat) (ts : List Nat)
    (hchain : List.Chain (fun a b => a ≤ b ∧ b < a + 300) t ts) :
    runBurst (t :: ts) =
      { syncTimer := none, syncFires := [ts.getLastD t + 300] } ∧
    (∀ (s : WatcherState) (now : Nat),
      (qualifyingEvent s now).syncTimer = some (now + 300)) := by
  refine ⟨?_, fun s now => rfl⟩
  unfold runBurst
  rw [List.foldl_cons]
  have hfirst : qualifyingEvent { syncTimer := none, syncFires := [] } t
      = { syncTimer := some (t + 300), syncFires := [] } := rfl
  rw [hfirst, foldl_qualifyingEvent_burst ts t [] hchain]
  rfl

/-- Witness for C5: five qualifying events at 0, 100, 200, 250 and 290 ms
produce exactly one sync, firing at 590 ms. -/
theorem debounce_coalesces_burst_witness :
    runBurst [0, 100, 200, 250, 290] =
      { syncTimer := none, syncFires := [590] } := by
  have h := (debounce_coalesces_burst 0 [100, 200, 250, 290]
    (by simp only [List.chain_cons, List.Chain.nil, and_true]; omega)).1
  simpa using h

/-- C8: a removal notification for the primary identity cookie dotcom_user
makes exactly one badge update call (the "..." text) and arms no timer, so
that event triggers zero account-sync invocations. -/
theorem dotcom_user_removal_badge_only :
    onCookieChanged "dotcom_user" true
      = { badgeCalls := ["..."], armsTimer := false } := by decide

/-! The rule synchroniser (updateDynamicRequestRules). The calls it makes on
the declarativeNetRequest engine are recorded as an explicit trace. -/

/-- The single combined argument of an updateDynamicRules call. -/
structure DNRUpdate where
  removeRuleIds : List Nat
  addRules : List DNRRule
deriving DecidableEq

/-- One observable call on the declarativeNetRequest engine. -/
inductive EngineCall where
  | getDynamicRules : EngineCall
  | updateDynamicRules : DNRUpdate → EngineCall
deriving DecidableEq

/-- updateDynamicRequestRules: when browser.declarativeNetRequest is absent
(modelled as none) it returns immediately, making no engine call; otherwise
it reads the existing dynamic rules, issues one combined update removing all
their ids and adding the freshly compiled rule set, and reads the rules again
for logging. -/
def updateDynamicRequestRules (declarativeNetRequest : Option (List DNRRule))
    (accounts : List Account) (autoSwitchRules : List AutoSwitchRule) :
    List EngineCall :=
  match declarativeNetRequest with
  | none => []
  | some existingRules =>
    [EngineCall.getDynamicRules,
     EngineCall.updateDynamicRules
       { removeRuleIds := existingRules.map (fun rule => rule.id)
         addRules := buildAddRules accounts autoSwitchRules },
     EngineCall.getDynamicRules]

/-- C7: the synchroniser is a no-op (no engine calls) when the declarative
filtering capability is absent; otherwise it issues exactly one combined
update, whose removeRuleIds are the ids of all currently installed rules and
whose addRules is the rule set freshly compiled by buildAddRules. -/
theorem updateDynamicRequestRules_spec (accounts : List Account)
    (autoSwitchRules : List AutoSwitchRule) :
    updateDynamicRequestRules none accounts autoSwitchRules = [] ∧
    ∀ existingRules : List DNRRule,
      (updateDynamicRequestRules (some existingRules) accounts autoSwitchRules).filterMap
          (fun call => match call with
            | EngineCall.updateDynamicRules u => some u
            | EngineCall.getDynamicRules => none)
        = [{ removeRuleIds := existingRules.map (fun rule => rule.id)
             addRules := buildAddRules accounts autoSwitchRules }] :=
  ⟨rfl, fun _ => rfl⟩

/-! Determinism and order stability of the compiler. -/

lemma buildAddRulesAux_id_lt (accounts : List Account)
    (rules : List AutoSwitchRule) (k : Nat) (r : DNRRule)
    (h : r ∈ buildAddRulesAux accounts k rules) : k < r.id := by
  obtain ⟨j, rule, v, _, _, hr⟩ := of_mem_buildAddRulesAux accounts rules k r h
  rw [hr]
  simp only [compiledRule]
  omega

lemma buildAddRulesAux_pairwise (accounts : List Account) :
    ∀ (rules : List AutoSwitchRule) (k : Nat),
      (buildAddRulesAux accounts k rules).Pairwise (fun a b => a.id < b.id) := by
  intro rules
  induction rules with
  | nil => intro k; simp [buildAddRulesAux]
  | cons r rest ih =>
    intro k
    unfold buildAddRulesAux
    cases hcv : buildCookieValue accounts r.account with
    | none => exact ih (k + 1)
    | some v =>
      refine List.Pairwise.cons ?_ (ih (k + 1))
      intro b hb
      have hlt := buildAddRulesAux_id_lt accounts rest (k + 1) b hb
      simp only [compiledRule]
      omega

/-- C9: rule compilation is deterministic and idempotent — for a fixed state
of the rule and account stores, two invocations of buildAddRules (the
compilation used by the synchroniser) produce identical rule sets — and its
output ordering is stable with respect to input order: the emitted ids
(originalIndex + 1) are strictly increasing along the output list. -/
theorem buildAddRules_deterministic_ordered (accounts : List Account)
    (autoSwitchRules : List AutoSwitchRule) :
    buildAddRules accounts autoSwitchRules = buildAddRules accounts autoSwitchRules ∧
    (buildAddRules accounts autoSwitchRules).Pairwise (fun a b => a.id < b.id) :=
  ⟨rfl, buildAddRulesAux_pairwise accounts autoSwitchRules 0⟩

/-! The command protocol (handleMessage / listenMessage). The RequestMessage
and Response types come from src/types, which is not part of the sources. -/

/-- Modelled from the spec: the RequestMessage union of the missing src/types
module — a closed set of command kinds (getAccounts, switchAccount,
removeAccount, clearCookies, getAutoSwitchRules) identified by a string type
tag, together with messages whose tag lies outside the closed set. -/
inductive RequestMessage where
  | getAccounts : RequestMessage
  | switchAccount : String → RequestMessage
  | removeAccount : String → RequestMessage
  | clearCookies : RequestMessage
  | getAutoSwitchRules : RequestMessage
  | unknownKind : String → RequestMessage
deriving DecidableEq

/-- The data payload of a command response. -/
inductive MsgData where
  | names : List String → MsgData
  | unit : MsgData
  | rules : List AutoSwitchRule → MsgData
deriving DecidableEq

/-- Outcomes of the collaborator calls that the message handlers delegate to:
each resolves to a value or throws an error. -/
structure ServiceEnv where
  getAllNames : Except String (List String)
  switchTo : String → Except String Unit
  removeAccount : String → Except String Unit
  clearCookies : Except String Unit
  getAllRules : Except String (List AutoSwitchRule)

/-- handleMessage: dispatch on the message type tag; the switch has no
default case, so a message of an unknown kind falls through and the function
yields undefined (none). -/
def handleMessage (env : ServiceEnv) : RequestMessage → Option (Except String MsgData)
  | RequestMessage.getAccounts => some (env.getAllNames.map MsgData.names)
  | RequestMessage.switchAccount account =>
    some ((env.switchTo account).map (fun _ => MsgData.unit))
  | RequestMessage.removeAccount account =>
    some ((env.removeAccount account).map (fun _ => MsgData.unit))
  | RequestMessage.clearCookies => some (env.clearCookies.map (fun _ => MsgData.unit))
  | RequestMessage.getAutoSwitchRules => some (env.getAllRules.map MsgData.rules)
  | RequestMessage.unknownKind _ => none

/-- Modelled from the spec: the structured Response type of the missing
src/types module, as produced by the onMessage listener. -/
structure Response where
  success : Bool
  data : Option MsgData
  error : Option String
deriving DecidableEq

/-- The onMessage listener body of listenMessage: it awaits handleMessage
inside try, wrapping a resolved value as a success and a thrown error as a
structured failure; awaiting the undefined produced by an unknown kind
resolves, giving a success that carries no data. -/
def listenMessage (env : ServiceEnv) (request : RequestMessage) : Response :=
  match handleMessage env request with
  | some (Except.ok d) => { success := true, data := some d, error := none }
  | some (Except.error e) => { success := false, data := none, error := some e }
  | none => { success := true, data := none, error := none }

/-- C10: for every known command kind the listener returns success together
with the handler's data when the delegated call resolves, and a structured
failure carrying the error when it throws — every outcome is a Response, so
no error propagates uncaught past this boundary — while a message of an
unknown kind is not handled by the dispatch: handleMessage yields undefined. -/
theorem handleMessage_boundary (env : ServiceEnv) (request : RequestMessage) :
    (∀ d, handleMessage env request = some (Except.ok d) →
      listenMessage env request = { success := true, data := some d, error := none }) ∧
    (∀ e, handleMessage env request = some (Except.error e) →
      listenMessage env request = { success := false, data := none, error := some e }) ∧
    (∀ tag, handleMessage env (RequestMessage.unknownKind tag) = none) ∧
    ((listenMessage env request).success = true ∨
      ∃ e, (listenMessage env request).error = some e) := by
  refine ⟨?_, ?_, fun _ => rfl, ?_⟩
  · intro d h
    simp [listenMessage, h]
  · intro e h
    simp [listenMessage, h]
  · unfold listenMessage
    cases handleMessage env request with
    | none => exact Or.inl rfl
    | some r =>
      cases r with
      | ok d => exact Or.inl rfl
      | error e => exact Or.inr ⟨e, rfl⟩

/-- Witness for C10: a concrete environment in which clearCookies throws is
converted into a structured failure response. -/
theorem handleMessage_boundary_witness :
    listenMessage
        { getAllNames := Except.ok ["alice"]
          switchTo := fun _ => Except.ok ()
          removeAccount := fun _ => Except.ok ()
          clearCookies := Except.error "boom"
          getAllRules := Except.ok [] }
        RequestMessage.clearCookies
      = { success := false, data := none, error := some "boom" } :=
  (handleMessage_boundary
    { getAllNames := Except.ok ["alice"]
      switchTo := fun _ => Except.ok ()
      removeAccount := fun _ => Except.ok ()
      clearCookies := Except.error "boom"
      getAllRules := Except.ok [] }
    RequestMessage.clearCookies).2.1 "boom" rfl

end GithubAccountSwitcher
